import Mathlib

/-!
Shallow embedding of the document-management core of the repository
(`file_manager.py`, together with the search route of `app.py`), and proofs
about it.  Pure string manipulation is modelled on `List Char` (a Python
`str` is a sequence of code points, exactly the `data` field of a Lean
`String`); database effects are modelled as explicit row lists; calls into
external libraries (sqlite FTS5, PyPDF2, file IO) are modelled as explicit
parameters carrying the values or exceptions those calls would produce.
-/

set_option autoImplicit false

namespace FileManagerModel

/-! ### Python primitives used by the source -/

/-- Characters treated as whitespace by Python `str.split()` / `str.strip()`
(the ASCII whitespace class: space, tab, newline, carriage return, vertical
tab, form feed; non-ASCII Unicode spaces are not needed by any input in this
development). -/
def pyIsSpace (c : Char) : Bool :=
  c = ' ' || c = Char.ofNat 9 || c = Char.ofNat 10 || c = Char.ofNat 13 ||
  c = Char.ofNat 11 || c = Char.ofNat 12

/-- Worker for `splitWs`: `acc` holds the characters of the word currently
being read, in reverse order. -/
def splitWsAux (l : List Char) (acc : List Char) : List (List Char) :=
  match l with
  | [] => if acc = [] then [] else [acc.reverse]
  | c :: cs =>
    if pyIsSpace c then
      if acc = [] then splitWsAux cs [] else acc.reverse :: splitWsAux cs []
    else
      splitWsAux cs (c :: acc)

/-- Python `str.split()` with no separator: split on runs of whitespace,
discarding empty words. -/
def splitWs (l : List Char) : List (List Char) := splitWsAux l []

/-- Python `' '.join(words)` at the character level. -/
def joinSp : List (List Char) → List Char
  | [] => []
  | [w] => w
  | w :: x :: rest => w ++ ' ' :: joinSp (x :: rest)

/-- Python `str.strip()`: drop whitespace from both ends. -/
def pyStrip (l : List Char) : List Char :=
  ((l.dropWhile pyIsSpace).reverse.dropWhile pyIsSpace).reverse

/-- Python `text.split()` producing the word list as `String`s. -/
def pySplit (s : String) : List String :=
  (splitWs s.data).map String.mk

/-! ### DocumentChunker (file_manager.py lines 115-151) -/

/-- One element of the list returned by `DocumentChunker.chunk_text`
(a Python dict with keys chunk_id, content, chunk_index, total_chunks). -/
structure Chunk where
  chunk_id : String
  content : String
  chunk_index : Nat
  total_chunks : Nat
deriving DecidableEq

/-- The dict appended at each iteration of the chunking loop: the window
`words[i : i + maxCS]` joined with single spaces, at running index `k`. -/
def chunkFrom (maxCS tot : Nat) (docId : String) (words : List String)
    (i k : Nat) : Chunk :=
  { chunk_id := docId ++ "_chunk_" ++ toString k
  , content := String.intercalate " " ((words.drop i).take maxCS)
  , chunk_index := k
  , total_chunks := tot }

/-- The `for i in range(0, len(words), step)` loop of `chunk_text`
(lines 137-149): append the window starting at `i`, then stop as soon as
`i + max_chunk_size >= len(words)`.  In Python a step of `0` raises
`ValueError` out of `range`; the model returns `[]` in that unreachable
configuration (the chunker is only ever built with `4000 > 200`). -/
def chunkLoop (maxCS step tot : Nat) (docId : String) (words : List String)
    (i k : Nat) : List Chunk :=
  if h : 0 < step ∧ i < words.length then
    if words.length ≤ i + maxCS then
      [chunkFrom maxCS tot docId words i k]
    else
      chunkFrom maxCS tot docId words i k ::
        chunkLoop maxCS step tot docId words (i + step) (k + 1)
  else []
termination_by words.length - i
decreasing_by
  simp only [not_le] at *
  omega

/-- `DocumentChunker.chunk_text` (lines 122-151), parametrised by
`max_chunk_size` and `overlap_size` (constructor defaults 4000 and 200). -/
def chunk_text (maxCS overlap : Nat) (text docId : String) : List Chunk :=
  if (pySplit text).length ≤ maxCS then
    [{ chunk_id := docId ++ "_chunk_0", content := text
     , chunk_index := 0, total_chunks := 1 }]
  else
    chunkLoop maxCS (maxCS - overlap)
      (((pySplit text).length + maxCS - 1) / maxCS)
      docId (pySplit text) 0 0

/-- Number of iterations the chunking loop performs when started at offset
`i` (equals `ceil((len - i - maxCS) / step) + 1` with truncated
subtraction). -/
def loopCount (len maxCS step i : Nat) : Nat :=
  (len - i - maxCS + step - 1) / step + 1

/-! ### Query sanitisation (`FileManager.clean_search_query`, lines 401-427) -/

/-- Double-quote character. -/
def dquote : Char := Char.ofNat 34
/-- Single-quote character. -/
def squote : Char := Char.ofNat 39
/-- Opening curly-brace character. -/
def lbrace : Char := Char.ofNat 123
/-- Closing curly-brace character. -/
def rbrace : Char := Char.ofNat 125

/-- The characters removed by the `query.replace(c, '')` cascade of
`clean_search_query` (lines 406-416). -/
def removedChars : List Char :=
  [dquote, squote, '?', '(', ')', '[', ']', lbrace, rbrace, '*', '+']

/-- Per-character effect of the replace cascade of lines 406-417: the
special characters are removed, a hyphen becomes a space, everything else
is kept.  The replaces are independent (none of their outputs is another's
input), so the cascade equals this one pass. -/
def cleanCharFn (c : Char) : Option Char :=
  if c ∈ removedChars then none
  else if c = '-' then some ' '
  else some c

/-- The whole replace cascade applied to a character sequence. -/
def cleanChars (l : List Char) : List Char := l.filterMap cleanCharFn

/-- `FileManager.clean_search_query` (lines 401-427): replace the special
characters, split into words, keep words of length at least 2, join with
single spaces; if no word survives, return the replaced query itself
(the local `query` variable has been mutated by the replaces at line 427). -/
def clean_search_query (query : String) : String :=
  if (splitWs (cleanChars query.data)).filter (fun w => 2 ≤ w.length) = [] then
    String.mk (cleanChars query.data)
  else
    String.mk (joinSp ((splitWs (cleanChars query.data)).filter
      (fun w => 2 ≤ w.length)))

/-! ### Database rows (`init_database`, lines 165-272) and search results -/

/-- A row of the `files` table (columns in source order; `upload_date` and
`last_modified` carry the `CURRENT_TIMESTAMP` defaults as abstract clock
values). -/
structure FileRow where
  id : String
  filename : String
  original_name : String
  file_path : String
  file_type : String
  file_size : Nat
  content_hash : String
  upload_date : Nat
  last_modified : Nat
  category : Option String
  tags : String
  description : Option String
  processed : Bool
  chunk_count : Nat
deriving DecidableEq

/-- A row of the `chunks` table. -/
structure ChunkRow where
  id : String
  file_id : String
  chunk_index : Nat
  content : String
  content_preview : String
deriving DecidableEq

/-- The durable store: the two relations of `file_index.db`.  Row order
models physical table order (insertion order). -/
structure DB where
  files : List FileRow
  chunks : List ChunkRow
deriving DecidableEq

/-- A search result dict as built by `search_files` / `fallback_search`. -/
structure SearchHit where
  file_id : String
  filename : String
  file_type : String
  category : Option String
  description : Option String
  chunk_count : Nat
  snippet : String
deriving DecidableEq

/-- The success payload of `get_file_content` (lines 592-600). -/
structure FileContent where
  content : String
  filename : String
  file_type : String
  category : Option String
  description : Option String
  chunk_count : Nat
deriving DecidableEq

/-- Result of `get_file_content`: either the content dict or the
`\x7b'error': 'File not found'\x7d` dict (line 601). -/
inductive ContentResult where
  | ok (r : FileContent)
  | error (msg : String)
deriving DecidableEq

/-! ### Ingestion (`FileManager.upload_file`, lines 344-370) -/

/-- The database effect of a successful `upload_file` run: the inserted
`files` row (lines 351-360, with `processed = True` and
`chunk_count = len(chunks)`) and the inserted `chunks` rows (lines 363-370,
with `content_preview = content[:200] + "..."`).  File IO, id generation
and hashing are abstracted into the parameters; `tagsJson` stands for
`json.dumps(tags or [])` and `now` for the timestamp defaults. -/
def upload_process (maxCS overlap : Nat) (file_id fname origName storedPath
    ftype : String) (fsize : Nat) (chash : String) (now : Nat)
    (category : Option String) (tagsJson : String)
    (description : Option String) (text_content : String) :
    FileRow × List ChunkRow :=
  let chunks := chunk_text maxCS overlap text_content file_id
  ({ id := file_id
   , filename := fname
   , original_name := origName
   , file_path := storedPath
   , file_type := ftype
   , file_size := fsize
   , content_hash := chash
   , upload_date := now
   , last_modified := now
   , category := category
   , tags := tagsJson
   , description := description
   , processed := true
   , chunk_count := chunks.length },
   chunks.map (fun ch =>
     { id := ch.chunk_id
     , file_id := file_id
     , chunk_index := ch.chunk_index
     , content := ch.content
     , content_preview := ch.content.take 200 ++ "..." }))

/-! ### Substring (LIKE) search (`FileManager.fallback_search`, lines 429-480) -/

/-- Does `pat` match a prefix of `s`? -/
def matchesAt (pat s : List Char) : Bool :=
  match pat, s with
  | [], _ => true
  | _ :: _, [] => false
  | p :: ps, c :: cs => p == c && matchesAt ps cs

/-- Is `pat` a contiguous subsequence of `s`? -/
def containsSub (pat : List Char) : List Char → Bool
  | [] => matchesAt pat []
  | c :: cs => matchesAt pat (c :: cs) || containsSub pat cs

/-- SQLite `s LIKE '%q%'`: substring match, case-insensitive on ASCII
letters only (both SQLite's LIKE and Lean's `Char.toLower` fold exactly
the ASCII range). -/
def likeContains (q s : String) : Bool :=
  containsSub (q.data.map Char.toLower) (s.data.map Char.toLower)

/-- `LIKE` against a nullable column: SQL `NULL LIKE pat` is not true. -/
def likeOpt (q : String) : Option String → Bool
  | some s => likeContains q s
  | none => false

/-- Insert `x` into `l` in front of the first element it is strictly
before; used to model SQL `ORDER BY` as a stable sort. -/
def insertOrd {α : Type} (lt : α → α → Bool) (x : α) : List α → List α
  | [] => [x]
  | y :: l => if lt x y then x :: y :: l else y :: insertOrd lt x l

/-- Stable sort by repeated ordered insertion (earlier elements stay in
front of later equal elements). -/
def sortOrd {α : Type} (lt : α → α → Bool) (l : List α) : List α :=
  l.foldl (fun acc x => insertOrd lt x acc) []

/-- `SELECT DISTINCT`: keep the first occurrence of each value. -/
def dedupKeepFirst {α : Type} [DecidableEq α] : List α → List α
  | [] => []
  | a :: l => a :: dedupKeepFirst (l.filter (fun b => b ≠ a))
termination_by l => l.length
decreasing_by
  simp only [List.length_cons]
  exact Nat.lt_succ_of_le (List.length_filter_le _ _)

/-- `FileManager.fallback_search` (lines 429-480): join `files` with
`chunks`, keep rows where the query appears as a substring of the chunk
content, the filename or the description, apply the optional exact-match
category and type filters, order by upload date descending, and return at
most 20 hits whose snippet is the first 300 characters of the chunk
content.  The SQL is modelled deterministically: the join enumerates
`files` outer / `chunks` inner in table order, `DISTINCT` keeps first
occurrences, and `ORDER BY` is a stable sort. -/
def fallback_search (db : DB) (query : String)
    (category file_type : Option String) : List SearchHit :=
  let rows := db.files.flatMap (fun f =>
    (db.chunks.filter (fun c => c.file_id == f.id)).map (fun c => (f, c)))
  let rows := rows.filter (fun fc =>
    likeContains query fc.2.content || likeContains query fc.1.filename ||
      likeOpt query fc.1.description)
  let rows := match category with
    | some cat => rows.filter (fun fc => fc.1.category == some cat)
    | none => rows
  let rows := match file_type with
    | some ft => rows.filter (fun fc => fc.1.file_type == ft)
    | none => rows
  let rows := sortOrd (fun a b => b.1.upload_date < a.1.upload_date) rows
  let hits := rows.map (fun fc =>
    { file_id := fc.1.id
    , filename := fc.1.filename
    , file_type := fc.1.file_type
    , category := fc.1.category
    , description := fc.1.description
    , chunk_count := fc.1.chunk_count
    , snippet := fc.2.content.take 300 })
  (dedupKeepFirst hits).take 20

/-! ### Search orchestration (`FileManager.search_files`, lines 482-556) -/

/-- The Azerbaijani diacritics checked at line 495. -/
def azChars : List Char := ['ə', 'ı', 'ö', 'ü', 'ğ', 'ş', 'ç']

/-- The special characters checked at line 496 (note: curly braces, `*`
and `+` are stripped by `clean_search_query` but are NOT in this list). -/
def specialChars : List Char := [dquote, squote, '?', '(', ')', '[', ']']

/-- `has_azerbaijani` (line 495). -/
def hasAzChar (q : String) : Bool := q.data.any (fun c => azChars.contains c)

/-- `has_special_chars` (line 496). -/
def hasSpecialChar (q : String) : Bool :=
  q.data.any (fun c => specialChars.contains c)

/-- Which search path `search_files` takes and with which query string:
the explicit decision function of the dual-path orchestrator
(lines 487-502). -/
inductive SearchStrategy where
  | like (q : String)
  | fts (q : String)
deriving DecidableEq

/-- The decision procedure of `search_files`: fall back to LIKE search on
the original query when the sanitised query strips to nothing (line 491)
or when the original query contains an Azerbaijani diacritic or one of the
checked special characters (lines 495-500); otherwise attempt FTS5 with
the sanitised query (line 516). -/
def search_strategy (query : String) : SearchStrategy :=
  if pyStrip (clean_search_query query).data = [] then
    SearchStrategy.like query
  else if hasAzChar query || hasSpecialChar query then
    SearchStrategy.like query
  else
    SearchStrategy.fts (clean_search_query query)

/-- `FileManager.search_files` (lines 482-556).  The FTS5 engine is
external; it is modelled by the parameter `ftsExec`, which returns `none`
when the `MATCH` query raises (the `except` at lines 548-551), in which
case the code falls back to LIKE search with the original query. -/
def search_files (db : DB) (ftsExec : String → Option (List SearchHit))
    (query : String) (category file_type : Option String) : List SearchHit :=
  match search_strategy query with
  | SearchStrategy.like q => fallback_search db q category file_type
  | SearchStrategy.fts cq =>
    match ftsExec cq with
    | some hits => hits
    | none => fallback_search db query category file_type

/-- The `/search-files` route of `app.py` (lines 238-261): reject an empty
query with an error payload (HTTP 400), otherwise return the result list
of `search_files` (the route passes only the category filter). -/
def search_route (db : DB) (ftsExec : String → Option (List SearchHit))
    (query : String) (category : Option String) :
    Except String (List SearchHit) :=
  if query = "" then Except.error "Axtarış sorğusu tələb olunur"
  else Except.ok (search_files db ftsExec query category none)

/-! ### Content lookup (`FileManager.get_file_content`, lines 558-601) -/

/-- `FileManager.get_file_content`: with a chunk index, fetch that chunk's
content (empty string when no row matches, line 571); without one, join
all of the document's chunks in index order with blank lines; then attach
the file metadata, or report `File not found` when the `files` row is
missing. -/
def get_file_content (db : DB) (file_id : String)
    (chunk_index : Option Nat) : ContentResult :=
  let content :=
    match chunk_index with
    | some ci =>
      match db.chunks.find? (fun c =>
          c.file_id == file_id && c.chunk_index == ci) with
      | some c => c.content
      | none => ""
    | none =>
      String.intercalate "\n\n"
        ((sortOrd (fun a b => a.chunk_index < b.chunk_index)
          (db.chunks.filter (fun c => c.file_id == file_id))).map
            (fun c => c.content))
  match db.files.find? (fun f => f.id == file_id) with
  | some f =>
    ContentResult.ok
      { content := content
      , filename := f.filename
      , file_type := f.file_type
      , category := f.category
      , description := f.description
      , chunk_count := f.chunk_count }
  | none => ContentResult.error "File not found"

/-- Is a `get_file_content` result the error dict? -/
def ContentResult.isErr : ContentResult → Bool
  | ContentResult.ok _ => false
  | ContentResult.error _ => true

/-! ### Extraction (`DocumentProcessor`, lines 27-112) -/

/-- The exception classes relevant to the extraction routines. -/
inductive PyError where
  | unicodeDecodeError
  | osError
  | otherError
deriving DecidableEq

/-- `DocumentProcessor.extract_text_from_pdf` (lines 30-42): the PyPDF2
calls are modelled by `pages` (`Except.error` when opening the reader or
extracting any page raises); the routine concatenates page texts with
newlines and the `except Exception` turns any failure into `""`. -/
def extract_text_from_pdf (pages : Except PyError (List String)) :
    Except PyError String :=
  match pages with
  | Except.ok ps => Except.ok (String.join (ps.map (fun p => p ++ "\n")))
  | Except.error _ => Except.ok ""

/-- `DocumentProcessor.extract_text_from_txt` (lines 76-88): the UTF-8
read is modelled by `readUtf8`, the Windows-1251 retry by `readCp1251`.
The outer `except` catches ONLY `UnicodeDecodeError`; inside the retry,
`except Exception` catches everything and yields `""`.  Any other error of
the first read (for example an `OSError`) propagates. -/
def extract_text_from_txt (readUtf8 readCp1251 : Except PyError String) :
    Except PyError String :=
  match readUtf8 with
  | Except.ok s => Except.ok s
  | Except.error e =>
    match e with
    | PyError.unicodeDecodeError =>
      match readCp1251 with
      | Except.ok s => Except.ok s
      | Except.error _ => Except.ok ""
    | _ => Except.error e

/-! ### Concrete test text: `n` words of a single letter each -/

/-- The characters of the text `"w w w ... w "` with `n` words. -/
def txtChars : Nat → List Char
  | 0 => []
  | n + 1 => 'w' :: ' ' :: txtChars n

/-- A concrete text with exactly `n` whitespace-separated words. -/
def textRep (n : Nat) : String := String.mk (txtChars n)

/-- A concrete `files` row used for content-lookup scenarios. -/
def sampleFile : FileRow :=
  { id := "f1", filename := "a.txt", original_name := "/tmp/a.txt"
  , file_path := "documents/f1_a.txt", file_type := "text"
  , file_size := 5, content_hash := "h", upload_date := 1
  , last_modified := 1, category := none, tags := "[]"
  , description := none, processed := true, chunk_count := 1 }

/-- A concrete `chunks` row: chunk 0 of document `f1`. -/
def sampleChunk : ChunkRow :=
  { id := "f1_chunk_0", file_id := "f1", chunk_index := 0
  , content := "hello", content_preview := "hello..." }

/-- A concrete store holding document `f1` with its single chunk. -/
def sampleDB : DB := { files := [sampleFile], chunks := [sampleChunk] }

/-! ### Helper lemmas: strings and word splitting -/

theorem mk_data (l : List Char) : (String.mk l).data = l := rfl

theorem splitWsAux_nil (acc : List Char) :
    splitWsAux [] acc = if acc = [] then [] else [acc.reverse] := rfl

theorem splitWsAux_cons (c : Char) (cs acc : List Char) :
    splitWsAux (c :: cs) acc =
      if pyIsSpace c then
        if acc = [] then splitWsAux cs [] else acc.reverse :: splitWsAux cs []
      else splitWsAux cs (c :: acc) := rfl

theorem splitWsAux_chars (l : List Char) :
    ∀ (acc w : List Char), w ∈ splitWsAux l acc → ∀ c ∈ w,
      (c ∈ l ∧ pyIsSpace c = false) ∨ c ∈ acc := by
  induction l with
  | nil =>
    intro acc w hw c hc
    unfold splitWsAux at hw
    by_cases h : acc = []
    · simp [h] at hw
    · rw [if_neg h] at hw
      rcases List.mem_singleton.mp hw with rfl
      exact Or.inr (List.mem_reverse.mp hc)
  | cons a l ih =>
    intro acc w hw c hc
    unfold splitWsAux at hw
    by_cases hs : pyIsSpace a = true
    · rw [if_pos hs] at hw
      by_cases h : acc = []
      · rw [if_pos h] at hw
        rcases ih [] w hw c hc with ⟨h1, h2⟩ | h3
        · exact Or.inl ⟨List.mem_cons_of_mem a h1, h2⟩
        · simp at h3
      · rw [if_neg h] at hw
        rcases List.mem_cons.mp hw with rfl | h2
        · exact Or.inr (List.mem_reverse.mp hc)
        · rcases ih [] w h2 c hc with ⟨h1, h2'⟩ | h3
          · exact Or.inl ⟨List.mem_cons_of_mem a h1, h2'⟩
          · simp at h3
    · rw [if_neg hs] at hw
      rcases ih (a :: acc) w hw c hc with ⟨h1, h2⟩ | h3
      · exact Or.inl ⟨List.mem_cons_of_mem a h1, h2⟩
      · rcases List.mem_cons.mp h3 with rfl | h5
        · exact Or.inl ⟨List.mem_cons_self _ _, by simpa using hs⟩
        · exact Or.inr h5

theorem splitWs_chars {l w : List Char} (hw : w ∈ splitWs l) :
    ∀ c ∈ w, c ∈ l ∧ pyIsSpace c = false := by
  intro c hc
  rcases splitWsAux_chars l [] w hw c hc with h | h
  · exact h
  · simp at h

theorem splitWsAux_ne_nil (l : List Char) :
    ∀ (acc w : List Char), w ∈ splitWsAux l acc → w ≠ [] := by
  induction l with
  | nil =>
    intro acc w hw
    unfold splitWsAux at hw
    by_cases h : acc = []
    · simp [h] at hw
    · rw [if_neg h] at hw
      rcases List.mem_singleton.mp hw with rfl
      simpa using h
  | cons a l ih =>
    intro acc w hw
    unfold splitWsAux at hw
    by_cases hs : pyIsSpace a = true
    · rw [if_pos hs] at hw
      by_cases h : acc = []
      · rw [if_pos h] at hw
        exact ih [] w hw
      · rw [if_neg h] at hw
        rcases List.mem_cons.mp hw with rfl | h2
        · simpa using h
        · exact ih [] w h2
    · rw [if_neg hs] at hw
      exact ih (a :: acc) w hw

theorem splitWs_ne_nil {l w : List Char} (hw : w ∈ splitWs l) : w ≠ [] :=
  splitWsAux_ne_nil l [] w hw

theorem splitWsAux_append (w : List Char) :
    ∀ (l acc : List Char), (∀ c ∈ w, pyIsSpace c = false) →
      splitWsAux (w ++ l) acc = splitWsAux l (w.reverse ++ acc) := by
  induction w with
  | nil => intro l acc _; simp
  | cons c w ih =>
    intro l acc hw
    have hc : pyIsSpace c = false := hw c (List.mem_cons_self _ _)
    show splitWsAux (c :: (w ++ l)) acc = _
    rw [splitWsAux_cons, if_neg (by simp [hc])]
    rw [ih l (c :: acc) (fun d hd => hw d (List.mem_cons_of_mem _ hd))]
    simp [List.reverse_cons, List.append_assoc]

theorem mem_joinSp :
    ∀ (ws : List (List Char)) (c : Char), c ∈ joinSp ws →
      c = ' ' ∨ ∃ w ∈ ws, c ∈ w := by
  intro ws
  induction ws with
  | nil => intro c hc; simp [joinSp] at hc
  | cons w rest ih =>
    cases rest with
    | nil =>
      intro c hc
      exact Or.inr ⟨w, List.mem_cons_self _ _, hc⟩
    | cons x rest2 =>
      intro c hc
      have hj : joinSp (w :: x :: rest2) = w ++ ' ' :: joinSp (x :: rest2) :=
        rfl
      rw [hj] at hc
      rcases List.mem_append.mp hc with h | h
      · exact Or.inr ⟨w, List.mem_cons_self _ _, h⟩
      · rcases List.mem_cons.mp h with rfl | h2
        · exact Or.inl rfl
        · rcases ih c h2 with h3 | ⟨w', hw', hcw⟩
          · exact Or.inl h3
          · exact Or.inr ⟨w', List.mem_cons_of_mem _ hw', hcw⟩

theorem splitWs_joinSp :
    ∀ (ws : List (List Char)), ws ≠ [] → (∀ w ∈ ws, w ≠ []) →
      (∀ w ∈ ws, ∀ c ∈ w, pyIsSpace c = false) →
      splitWs (joinSp ws) = ws := by
  intro ws
  induction ws with
  | nil => intro h; exact absurd rfl h
  | cons w rest ih =>
    intro _ hne hsp
    have hwne : w ≠ [] := hne w (List.mem_cons_self _ _)
    have hwsp : ∀ c ∈ w, pyIsSpace c = false :=
      hsp w (List.mem_cons_self _ _)
    cases rest with
    | nil =>
      show splitWs (joinSp [w]) = [w]
      have hj : joinSp [w] = w := rfl
      rw [hj]
      unfold splitWs
      have h1 : splitWsAux (w ++ []) [] = splitWsAux [] (w.reverse ++ []) :=
        splitWsAux_append w [] [] hwsp
      rw [List.append_nil] at h1
      rw [h1, splitWsAux_nil, if_neg (by simpa using hwne)]
      simp
    | cons x rest2 =>
      have hj : joinSp (w :: x :: rest2) = w ++ ' ' :: joinSp (x :: rest2) :=
        rfl
      unfold splitWs
      rw [hj, splitWsAux_append w (' ' :: joinSp (x :: rest2)) [] hwsp]
      rw [List.append_nil, splitWsAux_cons, if_pos (by decide)]
      rw [if_neg (by simpa using hwne)]
      have ihr : splitWs (joinSp (x :: rest2)) = x :: rest2 :=
        ih (by simp)
          (fun v hv => hne v (List.mem_cons_of_mem _ hv))
          (fun v hv => hsp v (List.mem_cons_of_mem _ hv))
      unfold splitWs at ihr
      rw [ihr]
      simp

/-! ### Helper lemmas: the sanitiser's character pass -/

theorem cleanCharFn_fix {a c : Char} (h : cleanCharFn a = some c) :
    cleanCharFn c = some c := by
  unfold cleanCharFn at h
  by_cases h1 : a ∈ removedChars
  · simp [h1] at h
  · by_cases h2 : a = '-'
    · rw [if_neg h1, if_pos h2] at h
      rcases Option.some.inj h with rfl
      decide
    · rw [if_neg h1, if_neg h2] at h
      rcases Option.some.inj h with rfl
      unfold cleanCharFn
      rw [if_neg h1, if_neg h2]

theorem cleanChars_fix_of_mem {l : List Char} :
    ∀ c ∈ cleanChars l, cleanCharFn c = some c := by
  intro c hc
  rcases List.mem_filterMap.mp hc with ⟨a, _, ha⟩
  exact cleanCharFn_fix ha

theorem cleanChars_id {l : List Char} (h : ∀ c ∈ l, cleanCharFn c = some c) :
    cleanChars l = l := by
  induction l with
  | nil => rfl
  | cons a l ih =>
    unfold cleanChars
    rw [List.filterMap_cons, h a (List.mem_cons_self _ _)]
    exact congrArg (a :: ·) (ih fun c hc => h c (List.mem_cons_of_mem _ hc))

theorem cleanChars_idem (l : List Char) :
    cleanChars (cleanChars l) = cleanChars l :=
  cleanChars_id cleanChars_fix_of_mem

/-- Claim C9: query sanitisation is idempotent — applying
`clean_search_query` to an already-sanitised query returns it unchanged,
for every query string. -/
theorem clean_search_query_idempotent (q : String) :
    clean_search_query (clean_search_query q) = clean_search_query q := by
  have hq1 : ∀ c ∈ cleanChars q.data, cleanCharFn c = some c :=
    cleanChars_fix_of_mem
  by_cases hc :
      (splitWs (cleanChars q.data)).filter (fun w => 2 ≤ w.length) = []
  · have h1 : clean_search_query q = String.mk (cleanChars q.data) := by
      unfold clean_search_query
      rw [if_pos hc]
    rw [h1]
    unfold clean_search_query
    rw [mk_data, cleanChars_idem, if_pos hc]
  · have h1 : clean_search_query q =
        String.mk (joinSp ((splitWs (cleanChars q.data)).filter
          (fun w => 2 ≤ w.length))) := by
      unfold clean_search_query
      rw [if_neg hc]
    set cleaned :=
      (splitWs (cleanChars q.data)).filter (fun w => 2 ≤ w.length) with hcl
    have hmem : ∀ w ∈ cleaned, w ∈ splitWs (cleanChars q.data) :=
      fun w hw => List.mem_of_mem_filter hw
    have hne : ∀ w ∈ cleaned, w ≠ [] :=
      fun w hw => splitWs_ne_nil (hmem w hw)
    have hsp : ∀ w ∈ cleaned, ∀ c ∈ w, pyIsSpace c = false :=
      fun w hw c hcw => (splitWs_chars (hmem w hw) c hcw).2
    have hfix : ∀ c ∈ joinSp cleaned, cleanCharFn c = some c := by
      intro c hcj
      rcases mem_joinSp cleaned c hcj with rfl | ⟨w, hw, hcw⟩
      · decide
      · exact hq1 c ((splitWs_chars (hmem w hw) c hcw).1)
    have hclean2 : cleanChars (joinSp cleaned) = joinSp cleaned :=
      cleanChars_id hfix
    have hsplit2 : splitWs (joinSp cleaned) = cleaned :=
      splitWs_joinSp cleaned hc hne hsp
    have hfilter2 : cleaned.filter (fun w => 2 ≤ w.length) = cleaned := by
      apply List.filter_eq_self.mpr
      intro w hw
      rw [hcl] at hw
      simpa using (List.mem_filter.mp hw).2
    rw [h1]
    unfold clean_search_query
    rw [mk_data, hclean2, hsplit2, hfilter2, if_neg hc]

/-! ### Helper lemmas: the chunking loop -/

theorem loopCount_last {len maxCS step i : Nat} (hstep : 0 < step)
    (h : len ≤ i + maxCS) : loopCount len maxCS step i = 1 := by
  unfold loopCount
  have h0 : len - i - maxCS = 0 := by omega
  rw [h0, Nat.div_eq_of_lt (by omega)]

theorem loopCount_succ {len maxCS step i : Nat} (hstep : 0 < step)
    (h : i + maxCS < len) :
    loopCount len maxCS step i = loopCount len maxCS step (i + step) + 1 := by
  unfold loopCount
  by_cases hD : step ≤ len - i - maxCS
  · have h1 : len - i - maxCS + step - 1 =
        (len - (i + step) - maxCS + step - 1) + step := by omega
    rw [h1, Nat.add_div_right _ hstep]
  · have h2 : len - (i + step) - maxCS = 0 := by omega
    have h4 : (len - i - maxCS + step - 1) / step = 1 := by
      have e : len - i - maxCS + step - 1 = (len - i - maxCS - 1) + step := by
        omega
      rw [e, Nat.add_div_right _ hstep, Nat.div_eq_of_lt (by omega)]
    rw [h2, h4, Nat.div_eq_of_lt (by omega)]

theorem chunkLoop_spec (maxCS step tot : Nat) (docId : String)
    (words : List String) (hstep : 0 < step) (hsm : step ≤ maxCS)
    (i k : Nat) (hi : i < words.length) :
    chunkLoop maxCS step tot docId words i k =
      (List.range (loopCount words.length maxCS step i)).map
        (fun j => chunkFrom maxCS tot docId words (i + j * step) (k + j)) := by
  rw [chunkLoop]
  rw [dif_pos ⟨hstep, hi⟩]
  by_cases hbr : words.length ≤ i + maxCS
  · rw [if_pos hbr, loopCount_last hstep hbr,
      show List.range 1 = [0] from rfl]
    simp
  · rw [if_neg hbr]
    have hi2 : i + step < words.length := by omega
    have hcnt : loopCount words.length maxCS step i =
        loopCount words.length maxCS step (i + step) + 1 :=
      loopCount_succ hstep (by omega)
    rw [chunkLoop_spec maxCS step tot docId words hstep hsm (i + step)
      (k + 1) hi2]
    rw [hcnt, List.range_succ_eq_map, List.map_cons, List.map_map]
    congr 1
    · simp
    · apply List.map_congr_left
      intro j _
      simp only [Function.comp_apply]
      have e1 : i + Nat.succ j * step = i + step + j * step := by
        rw [Nat.succ_mul]; omega
      have e2 : k + Nat.succ j = k + 1 + j := by omega
      rw [e1, e2]
termination_by words.length - i
decreasing_by omega

theorem splitWs_txtChars (n : Nat) :
    splitWs (txtChars n) = List.replicate n ['w'] := by
  induction n with
  | zero => rfl
  | succ n ih =>
    unfold splitWs at ih ⊢
    show splitWsAux ('w' :: ' ' :: txtChars n) [] = _
    rw [splitWsAux_cons, if_neg (by decide), splitWsAux_cons,
      if_pos (by decide), if_neg (by decide), ih]
    rfl

theorem pySplit_textRep (n : Nat) :
    pySplit (textRep n) = List.replicate n (String.mk ['w']) := by
  unfold pySplit textRep
  rw [mk_data, splitWs_txtChars, List.map_replicate]

/-- Claim C1 counterexample: an 8000-word text (with the default
configuration 4000/200) has `ceil(8000/4000) = 2`, yet `chunk_text`
produces 3 chunks — the loop advances by `4000 - 200 = 3800` words, so
the chunk count is not `ceil(wordCount / maxChunkWords)`. -/
theorem chunk_text_count_counterexample :
    (pySplit (textRep 8000)).length = 8000 ∧
    4000 < (pySplit (textRep 8000)).length ∧
    ((pySplit (textRep 8000)).length + 4000 - 1) / 4000 = 2 ∧
    (chunk_text 4000 200 (textRep 8000) "doc").length = 3 := by
  have hlen : (pySplit (textRep 8000)).length = 8000 := by
    rw [pySplit_textRep, List.length_replicate]
  refine ⟨hlen, by omega, by rw [hlen], ?_⟩
  unfold chunk_text
  rw [if_neg (by omega)]
  rw [chunkLoop_spec _ _ _ _ _ (by norm_num) (by norm_num) 0 0 (by omega)]
  rw [List.length_map, List.length_range]
  unfold loopCount
  rw [hlen]

/-- Claim C1 (amended): for a text whose word count exceeds
`maxChunkWords` (with `overlapWords < maxChunkWords`), `chunk_text`
produces `1 + ceil((wordCount - maxChunkWords) / (maxChunkWords -
overlapWords))` chunks, while `ceil(wordCount / maxChunkWords)` is the
value recorded as `total_chunks` on every chunk of the sequence. -/
theorem chunk_text_count_c1 (maxCS overlap : Nat) (text docId : String)
    (hov : overlap < maxCS) (hgt : maxCS < (pySplit text).length) :
    (chunk_text maxCS overlap text docId).length =
      ((pySplit text).length - maxCS + (maxCS - overlap) - 1) /
        (maxCS - overlap) + 1 ∧
    (chunk_text maxCS overlap text docId).map (fun c => c.total_chunks) =
      List.replicate (chunk_text maxCS overlap text docId).length
        (((pySplit text).length + maxCS - 1) / maxCS) := by
  have hstep : 0 < maxCS - overlap := by omega
  have hch : chunk_text maxCS overlap text docId =
      (List.range
        (loopCount (pySplit text).length maxCS (maxCS - overlap) 0)).map
        (fun j => chunkFrom maxCS
          (((pySplit text).length + maxCS - 1) / maxCS)
          docId (pySplit text) (0 + j * (maxCS - overlap)) (0 + j)) := by
    unfold chunk_text
    rw [if_neg (by omega),
      chunkLoop_spec _ _ _ _ _ hstep (Nat.sub_le _ _) 0 0 (by omega)]
  constructor
  · rw [hch, List.length_map, List.length_range]
    unfold loopCount
    rw [Nat.sub_zero]
  · rw [hch, List.map_map, List.length_map]
    refine List.eq_replicate_iff.mpr ⟨by rw [List.length_map], ?_⟩
    intro b hb
    rcases List.mem_map.mp hb with ⟨j, _, rfl⟩
    rfl

/-- Witness for the amended C1 at `maxChunkWords = 4`, `overlapWords = 2`
on a concrete 8-word text: 3 chunks are produced while `ceil(8/4) = 2`
is recorded as `total_chunks`. -/
theorem chunk_text_count_c1_witness :
    (2 < 4 ∧ 4 < (pySplit (textRep 8)).length) ∧
    ((chunk_text 4 2 (textRep 8) "d").length =
      ((pySplit (textRep 8)).length - 4 + (4 - 2) - 1) / (4 - 2) + 1 ∧
     (chunk_text 4 2 (textRep 8) "d").map (fun c => c.total_chunks) =
      List.replicate (chunk_text 4 2 (textRep 8) "d").length
        (((pySplit (textRep 8)).length + 4 - 1) / 4)) :=
  ⟨⟨by norm_num, by decide⟩,
   chunk_text_count_c1 4 2 (textRep 8) "d" (by norm_num) (by decide)⟩

/-- Claim C7: with the default configuration (4000/200), a 4500-word text
chunks into exactly 2 chunks — chunk 0 is words 1-4000 (`take 4000`) and
chunk 1 starts at word 3801 (offset `4000 - 200 = 3800`) running to word
4500, each chunk `k` starting at word offset `k * 3800`, the final short
window included, with `total_chunks = 2` recorded on both. -/
theorem chunk_text_scenario_c7 (text docId : String)
    (h : (pySplit text).length = 4500) :
    chunk_text 4000 200 text docId =
      [{ chunk_id := docId ++ "_chunk_" ++ toString 0
       , content := String.intercalate " " ((pySplit text).take 4000)
       , chunk_index := 0
       , total_chunks := 2 },
       { chunk_id := docId ++ "_chunk_" ++ toString 1
       , content :=
           String.intercalate " " (((pySplit text).drop 3800).take 4000)
       , chunk_index := 1
       , total_chunks := 2 }] := by
  unfold chunk_text
  rw [if_neg (by omega)]
  rw [chunkLoop_spec _ _ _ _ _ (by norm_num) (by norm_num) 0 0 (by omega)]
  have hcnt : loopCount (pySplit text).length 4000 (4000 - 200) 0 = 2 := by
    unfold loopCount
    rw [h]
  have htot : ((pySplit text).length + 4000 - 1) / 4000 = 2 := by
    rw [h]
  rw [hcnt, htot, show List.range 2 = [0, 1] from rfl]
  norm_num [chunkFrom]

/-- Witness for C7: the scenario instantiated on a concrete 4500-word
text. -/
theorem chunk_text_scenario_c7_witness :
    (pySplit (textRep 4500)).length = 4500 ∧
    chunk_text 4000 200 (textRep 4500) "d" =
      [{ chunk_id := "d" ++ "_chunk_" ++ toString 0
       , content := String.intercalate " " ((pySplit (textRep 4500)).take 4000)
       , chunk_index := 0
       , total_chunks := 2 },
       { chunk_id := "d" ++ "_chunk_" ++ toString 1
       , content := String.intercalate " "
           (((pySplit (textRep 4500)).drop 3800).take 4000)
       , chunk_index := 1
       , total_chunks := 2 }] := by
  have h : (pySplit (textRep 4500)).length = 4500 := by
    rw [pySplit_textRep, List.length_replicate]
  exact ⟨h, chunk_text_scenario_c7 (textRep 4500) "d" h⟩

theorem chunk_text_indices (maxCS overlap : Nat) (hov : overlap < maxCS)
    (text docId : String) :
    (chunk_text maxCS overlap text docId).map (fun c => c.chunk_index) =
      List.range (chunk_text maxCS overlap text docId).length := by
  by_cases hle : (pySplit text).length ≤ maxCS
  · unfold chunk_text
    rw [if_pos hle]
    rfl
  · unfold chunk_text
    rw [if_neg hle]
    rw [chunkLoop_spec _ _ _ _ _ (by omega) (Nat.sub_le _ _) 0 0 (by omega)]
    rw [List.map_map, List.length_map, List.length_range]
    have hfun : ((fun c : Chunk => c.chunk_index) ∘ fun j =>
        chunkFrom maxCS (((pySplit text).length + maxCS - 1) / maxCS)
          docId (pySplit text) (0 + j * (maxCS - overlap)) (0 + j)) =
        fun j : Nat => j := by
      funext j
      simp [chunkFrom]
    rw [hfun]
    simp

/-- Claim C8: for every ingested document (the record is inserted with
`processed = True`), the `chunk_count` stored on the `files` row equals
the number of persisted `chunks` rows, and the chunk indices of those rows
are exactly `0 .. chunk_count - 1`, each occurring exactly once, in order,
with no gaps or duplicates. -/
theorem upload_process_invariant_c8 (maxCS overlap : Nat)
    (hov : overlap < maxCS)
    (file_id fname origName storedPath ftype : String) (fsize : Nat)
    (chash : String) (now : Nat) (category : Option String)
    (tagsJson : String) (description : Option String)
    (text_content : String) :
    (upload_process maxCS overlap file_id fname origName storedPath ftype
      fsize chash now category tagsJson description
      text_content).1.processed = true ∧
    (upload_process maxCS overlap file_id fname origName storedPath ftype
      fsize chash now category tagsJson description
      text_content).1.chunk_count =
      (upload_process maxCS overlap file_id fname origName storedPath ftype
        fsize chash now category tagsJson description
        text_content).2.length ∧
    (upload_process maxCS overlap file_id fname origName storedPath ftype
      fsize chash now category tagsJson description
      text_content).2.map (fun r => r.chunk_index) =
      List.range
        (upload_process maxCS overlap file_id fname origName storedPath
          ftype fsize chash now category tagsJson description
          text_content).2.length := by
  refine ⟨rfl, ?_, ?_⟩
  · unfold upload_process
    simp
  · unfold upload_process
    rw [List.map_map, List.length_map]
    have hfun : ((fun r : ChunkRow => r.chunk_index) ∘ fun ch : Chunk =>
        ({ id := ch.chunk_id, file_id := file_id
         , chunk_index := ch.chunk_index, content := ch.content
         , content_preview := ch.content.take 200 ++ "..." } : ChunkRow)) =
        fun ch : Chunk => ch.chunk_index := by
      funext ch
      rfl
    rw [hfun]
    exact chunk_text_indices maxCS overlap hov text_content file_id

/-- Witness for C8 at the default configuration on a concrete 8-word
text. -/
theorem upload_process_invariant_c8_witness :
    (upload_process 4000 200 "f1" "a.txt" "/tmp/a.txt"
      "documents/f1_a.txt" "text" 15 "h" 7 (some "cat") "[]" none
      (textRep 8)).1.processed = true ∧
    (upload_process 4000 200 "f1" "a.txt" "/tmp/a.txt"
      "documents/f1_a.txt" "text" 15 "h" 7 (some "cat") "[]" none
      (textRep 8)).1.chunk_count =
      (upload_process 4000 200 "f1" "a.txt" "/tmp/a.txt"
        "documents/f1_a.txt" "text" 15 "h" 7 (some "cat") "[]" none
        (textRep 8)).2.length ∧
    (upload_process 4000 200 "f1" "a.txt" "/tmp/a.txt"
      "documents/f1_a.txt" "text" 15 "h" 7 (some "cat") "[]" none
      (textRep 8)).2.map (fun r => r.chunk_index) =
      List.range
        (upload_process 4000 200 "f1" "a.txt" "/tmp/a.txt"
          "documents/f1_a.txt" "text" 15 "h" 7 (some "cat") "[]" none
          (textRep 8)).2.length :=
  upload_process_invariant_c8 4000 200 (by norm_num) "f1" "a.txt"
    "/tmp/a.txt" "documents/f1_a.txt" "text" 15 "h" 7 (some "cat") "[]"
    none (textRep 8)

/-- Claim C10: a text with zero words (in particular the empty text)
yields exactly one chunk whose content is the whole text, with index 0 and
`total_chunks = 1`; chunking never yields zero chunks; and ingesting an
empty extracted text produces a record with `processed = true`,
`chunk_count = 1`, and a single chunk row with empty content. -/
theorem chunk_empty_c10 (maxCS overlap : Nat) (hov : overlap < maxCS)
    (text docId file_id fname origName storedPath ftype : String)
    (fsize : Nat) (chash : String) (now : Nat) (category : Option String)
    (tagsJson : String) (description : Option String) :
    (pySplit text = [] →
      chunk_text maxCS overlap text docId =
        [{ chunk_id := docId ++ "_chunk_0", content := text
         , chunk_index := 0, total_chunks := 1 }]) ∧
    0 < (chunk_text maxCS overlap text docId).length ∧
    (upload_process maxCS overlap file_id fname origName storedPath ftype
      fsize chash now category tagsJson description "").1.processed = true ∧
    (upload_process maxCS overlap file_id fname origName storedPath ftype
      fsize chash now category tagsJson description "").1.chunk_count = 1 ∧
    (upload_process maxCS overlap file_id fname origName storedPath ftype
      fsize chash now category tagsJson description "").2.map
        (fun r => r.content) = [""] := by
  have hct : chunk_text maxCS overlap "" file_id =
      [{ chunk_id := file_id ++ "_chunk_0", content := ""
       , chunk_index := 0, total_chunks := 1 }] := by
    unfold chunk_text
    rw [if_pos (by rw [show pySplit "" = [] from rfl]; exact Nat.zero_le _)]
  refine ⟨?_, ?_, rfl, ?_, ?_⟩
  · intro h
    unfold chunk_text
    rw [if_pos (by rw [h]; exact Nat.zero_le _)]
  · by_cases hle : (pySplit text).length ≤ maxCS
    · unfold chunk_text
      rw [if_pos hle]
      simp
    · unfold chunk_text
      rw [if_neg hle]
      rw [chunkLoop_spec _ _ _ _ _ (by omega) (Nat.sub_le _ _) 0 0
        (by omega)]
      rw [List.length_map, List.length_range]
      unfold loopCount
      exact Nat.succ_pos _
  · show (chunk_text maxCS overlap "" file_id).length = 1
    rw [hct]
    rfl
  · show ((chunk_text maxCS overlap "" file_id).map _).map _ = [""]
    rw [hct]
    rfl

/-- Witness for C10 at the default configuration with concrete metadata
and the empty text. -/
theorem chunk_empty_c10_witness :
    (pySplit "" = [] ∧
      chunk_text 4000 200 "" "d" =
        [{ chunk_id := "d" ++ "_chunk_0", content := ""
         , chunk_index := 0, total_chunks := 1 }]) ∧
    0 < (chunk_text 4000 200 "" "d").length ∧
    (upload_process 4000 200 "f1" "e.txt" "/tmp/e.txt"
      "documents/f1_e.txt" "text" 0 "h" 3 none "[]" none
      "").1.processed = true ∧
    (upload_process 4000 200 "f1" "e.txt" "/tmp/e.txt"
      "documents/f1_e.txt" "text" 0 "h" 3 none "[]" none
      "").1.chunk_count = 1 ∧
    (upload_process 4000 200 "f1" "e.txt" "/tmp/e.txt"
      "documents/f1_e.txt" "text" 0 "h" 3 none "[]" none "").2.map
        (fun r => r.content) = [""] := by
  have h := chunk_empty_c10 4000 200 (by norm_num) "" "d" "f1" "e.txt"
    "/tmp/e.txt" "documents/f1_e.txt" "text" 0 "h" 3 none "[]" none
  exact ⟨⟨rfl, h.1 rfl⟩, h.2.1, h.2.2.1, h.2.2.2.1, h.2.2.2.2⟩

/-- Claim C3: whenever sanitisation yields the empty string, the search
orchestrator goes directly to substring (LIKE) search using the original
query, without attempting the indexed path. -/
theorem search_empty_sanitised_c3 (query : String)
    (h : clean_search_query query = "") (db : DB)
    (ftsExec : String → Option (List SearchHit))
    (category file_type : Option String) :
    search_strategy query = SearchStrategy.like query ∧
    search_files db ftsExec query category file_type =
      fallback_search db query category file_type := by
  have hs : search_strategy query = SearchStrategy.like query := by
    unfold search_strategy
    rw [h]
    rw [if_pos (show pyStrip "".data = [] from rfl)]
  refine ⟨hs, ?_⟩
  unfold search_files
  rw [hs]

/-- Witness for C3: sanitising `"()"` yields the empty string and the
orchestrator runs substring search with the original query. -/
theorem search_empty_sanitised_c3_witness :
    clean_search_query "()" = "" ∧
    (search_strategy "()" = SearchStrategy.like "()" ∧
     search_files { files := [], chunks := [] } (fun _ => none) "()"
       none none =
       fallback_search { files := [], chunks := [] } "()" none none) :=
  ⟨by decide,
   search_empty_sanitised_c3 "()" (by decide) { files := [], chunks := [] }
     (fun _ => none) none none⟩

/-- Claim C2 counterexample: `"ab*cd"` contains `*` — a punctuation
character stripped by sanitisation — yet `search_files` does NOT skip the
indexed path: the special-character check of line 496 omits `*`, `+` and
the curly braces, so the FTS path is attempted with the sanitised query
`"abcd"`. -/
theorem search_bypass_counterexample :
    '*' ∈ "ab*cd".data ∧ '*' ∈ removedChars ∧
    search_strategy "ab*cd" = SearchStrategy.fts "abcd" :=
  ⟨by decide, by decide, by decide⟩

/-- Claim C2 (amended): a query containing one of the seven checked
Azerbaijani diacritics or one of the special characters of line 496
(double quote, single quote, `?`, parentheses, square brackets) bypasses
the indexed path entirely and runs substring search on the original
query; in particular the `sənəd` scenario holds.  (Curly braces, `*` and
`+`, although stripped by sanitisation, do not trigger the bypass.) -/
theorem search_bypass_c2 (query : String)
    (h : hasAzChar query = true ∨ hasSpecialChar query = true) (db : DB)
    (ftsExec : String → Option (List SearchHit))
    (category file_type : Option String) :
    search_strategy query = SearchStrategy.like query ∧
    search_files db ftsExec query category file_type =
      fallback_search db query category file_type := by
  have hs : search_strategy query = SearchStrategy.like query := by
    unfold search_strategy
    by_cases h1 : pyStrip (clean_search_query query).data = []
    · rw [if_pos h1]
    · rw [if_neg h1, if_pos (by rcases h with h | h <;> simp [h])]
  refine ⟨hs, ?_⟩
  unfold search_files
  rw [hs]

/-- Witness for the amended C2: searching for `sənəd` bypasses the
indexed path and returns substring-search results on the original
query. -/
theorem search_bypass_c2_witness :
    hasAzChar "sənəd" = true ∧
    (search_strategy "sənəd" = SearchStrategy.like "sənəd" ∧
     search_files { files := [], chunks := [] } (fun _ => none) "sənəd"
       none none =
       fallback_search { files := [], chunks := [] } "sənəd" none none) :=
  ⟨by decide,
   search_bypass_c2 "sənəd" (Or.inl (by decide))
     { files := [], chunks := [] } (fun _ => none) none none⟩

/-- Claim C5: the search endpoint rejects the empty query with the
empty-query error payload; for every non-empty query it returns an
ordered (possibly empty) list of hits — the model is total, so no
exception ever reaches the caller. -/
theorem search_route_c5 (db : DB)
    (ftsExec : String → Option (List SearchHit)) (query : String)
    (category : Option String) :
    (query = "" →
      search_route db ftsExec query category =
        Except.error "Axtarış sorğusu tələb olunur") ∧
    (query ≠ "" →
      ∃ hits : List SearchHit,
        search_route db ftsExec query category = Except.ok hits) := by
  constructor
  · intro h
    unfold search_route
    rw [if_pos h]
  · intro h
    refine ⟨search_files db ftsExec query category none, ?_⟩
    unfold search_route
    rw [if_neg h]

/-- Witness for C5: the empty query errors, the query `"ab"` yields a
result list. -/
theorem search_route_c5_witness :
    search_route { files := [], chunks := [] } (fun _ => none) "" none =
      Except.error "Axtarış sorğusu tələb olunur" ∧
    ∃ hits : List SearchHit,
      search_route { files := [], chunks := [] } (fun _ => none) "ab"
        none = Except.ok hits :=
  ⟨(search_route_c5 { files := [], chunks := [] } (fun _ => none) ""
      none).1 rfl,
   (search_route_c5 { files := [], chunks := [] } (fun _ => none) "ab"
      none).2 (by decide)⟩

/-- Claim C6 counterexample: in a store holding document `f1` with a
single chunk at index 0, requesting chunk index 1 does NOT produce a
not-found error — `get_file_content` returns a success result with empty
content (lines 570-571 turn the missing chunk row into `""`). -/
theorem get_file_content_counterexample :
    get_file_content sampleDB "f1" (some 1) =
      ContentResult.ok
        { content := "", filename := "a.txt", file_type := "text"
        , category := none, description := none, chunk_count := 1 } := by
  decide

/-- Claim C6 (amended): when the document row exists but no chunk row
matches the requested index, `get_file_content` returns a success result
whose content is the empty string; the only error it ever reports is the
missing-document `File not found`. -/
theorem get_file_content_missing_chunk_c6 (db : DB) (fid : String)
    (ci : Nat) (f : FileRow)
    (hf : db.files.find? (fun g => g.id == fid) = some f)
    (hc : db.chunks.find?
      (fun c => c.file_id == fid && c.chunk_index == ci) = none) :
    get_file_content db fid (some ci) =
      ContentResult.ok
        { content := "", filename := f.filename
        , file_type := f.file_type, category := f.category
        , description := f.description, chunk_count := f.chunk_count } := by
  simp only [get_file_content]
  rw [hc, hf]

/-- Witness for the amended C6 on the concrete store: document `f1`
exists, no chunk has index 5, and the lookup succeeds with empty
content. -/
theorem get_file_content_missing_chunk_c6_witness :
    sampleDB.files.find? (fun g => g.id == "f1") = some sampleFile ∧
    sampleDB.chunks.find?
      (fun c => c.file_id == "f1" && c.chunk_index == 5) = none ∧
    get_file_content sampleDB "f1" (some 5) =
      ContentResult.ok
        { content := "", filename := sampleFile.filename
        , file_type := sampleFile.file_type
        , category := sampleFile.category
        , description := sampleFile.description
        , chunk_count := sampleFile.chunk_count } :=
  ⟨by decide, by decide,
   get_file_content_missing_chunk_c6 sampleDB "f1" 5 sampleFile
     (by decide) (by decide)⟩

/-- Claim C4 counterexample: a non-decode error on the initial UTF-8 read
(for example an `OSError`) is NOT caught by `extract_text_from_txt` — the
routine propagates it instead of returning the empty string, because the
outer `except` clause at line 82 catches only `UnicodeDecodeError`. -/
theorem extract_txt_counterexample :
    extract_text_from_txt (Except.error PyError.osError)
      (Except.ok "recovered") = Except.error PyError.osError := rfl

/-- Claim C4 (amended): the pdf extractor (and likewise docx, excel,
html, markdown, which share its `except Exception` shape) never
propagates an error; the txt extractor returns the text of a successful
read, swallows a Unicode decode failure (retrying with cp1251 and
returning the empty string when the retry fails too), but propagates any
non-decode error raised by the initial read. -/
theorem extract_error_handling_c4 (pages : Except PyError (List String))
    (r2 : Except PyError String) (s : String) (e : PyError) :
    (∃ t, extract_text_from_pdf pages = Except.ok t) ∧
    extract_text_from_txt (Except.ok s) r2 = Except.ok s ∧
    extract_text_from_txt (Except.error PyError.unicodeDecodeError)
      (Except.error e) = Except.ok "" ∧
    (e ≠ PyError.unicodeDecodeError →
      extract_text_from_txt (Except.error e) r2 = Except.error e) := by
  refine ⟨?_, rfl, rfl, ?_⟩
  · cases pages with
    | ok ps => exact ⟨_, rfl⟩
    | error err => exact ⟨"", rfl⟩
  · intro he
    cases e with
    | unicodeDecodeError => exact absurd rfl he
    | osError => rfl
    | otherError => rfl

/-- Witness for the amended C4 at concrete read outcomes. -/
theorem extract_error_handling_c4_witness :
    (∃ t, extract_text_from_pdf (Except.error PyError.osError) =
      Except.ok t) ∧
    extract_text_from_txt (Except.ok "abc") (Except.ok "x") =
      Except.ok "abc" ∧
    extract_text_from_txt (Except.error PyError.unicodeDecodeError)
      (Except.error PyError.otherError) = Except.ok "" ∧
    extract_text_from_txt (Except.error PyError.osError) (Except.ok "x") =
      Except.error PyError.osError := by
  have h := extract_error_handling_c4 (Except.error PyError.osError)
    (Except.ok "x") "abc" PyError.osError
  exact ⟨h.1, h.2.1, h.2.2.1, h.2.2.2 (by decide)⟩

end FileManagerModel
